import Mathlib

/-!
Verification of the BadRobot worker's masked patch-regeneration pipeline.

The worker (Node/Express + jimp) is embedded shallowly:

* `Raster` mirrors jimp's `bitmap` (width, height, flat RGBA byte buffer).
* `maskBBox`, `clampBBox` and the `POST /process` handler body are translated
  from the worker source (`maskBBox`, `clampBBox`, the handler) into pure
  functions; the asynchronous external generation call becomes an explicit
  `gen` argument returning `Except String (List (Option Raster))` (a thrown
  error, or the `candidates[0].content.parts` list in which a part may or may
  not carry decodable inline image data).
* jimp's geometric operations (`resize`, `crop`, `composite`, `mask`,
  `new Jimp(w,h,color)`) are modelled by `jimpResize`, `jimpCrop`,
  `jimpComposite`, `jimpMask`, `newJimp`.  `jimpResize` point-samples the
  scale-to-fill source mapping `sx = ⌊x·srcW/w⌋` (the resampling filter is an
  implementation choice per the design, but the scale-to-fill geometry — the
  whole source stretched onto the whole target — is what `resize` does);
  `jimpComposite` uses the documented blend
  `dest.px = overlay.px·α + dest.px·(1-α)` on the 0..255 scale;
  `jimpMask` scales alpha by the mask pixel's RGB average
  (`α' = ⌊α·(r+g+b)/765⌋`, the exact floor of jimp's float computation).
* The gaussian blur used by `feather` lives in the jimp library and uses
  floating-point weights; it is abstracted as a `blur : Raster → Nat → Raster`
  parameter, so every theorem below that quantifies over `blur` holds for the
  actual gaussian kernel in particular.
* In-place mutation (`clone()` / `gaussian()` mutating jimp objects) is made
  explicit for the feathering filter through a small heap model (`Store`),
  so that the "operates on a copy" contract is a real statement.
-/

namespace BadRobot

/-- Canonical decoded raster: width, height and a flat RGBA byte buffer
addressed `(y * width + x) * 4 + channel`, mirroring jimp's `bitmap`. -/
structure Raster where
  width : Nat
  height : Nat
  data : List Nat
  deriving DecidableEq, Repr

/-- Read one byte of the flat buffer (JS `data[idx]`; an out-of-range read,
which JS sees as `undefined` and which never passes a `> 128` test, reads 0). -/
def Raster.byteAt (m : Raster) (i : Nat) : Nat := m.data.getD i 0

/-- Channel `c` (0 = R, 1 = G, 2 = B, 3 = A) of pixel `(x, y)`. -/
def chan (m : Raster) (x y c : Nat) : Nat := m.byteAt ((y * m.width + x) * 4 + c)

/-- Build a flat RGBA buffer row-major from a per-pixel 4-byte list. -/
def buildData (w h : Nat) (f : Nat → Nat → List Nat) : List Nat :=
  ((List.range h).map (fun y => ((List.range w).map (fun x => f x y)).flatten)).flatten

/-- jimp `new Jimp(w, h, color)`: a `w × h` raster filled with one RGBA value. -/
def newJimp (w h r g b a : Nat) : Raster :=
  { width := w, height := h, data := buildData w h (fun _ _ => [r, g, b, a]) }

/-- jimp `resize(w, h)`: scale-to-fill resampling to exactly `w × h`; output
pixel `(x, y)` samples source pixel `(⌊x·srcW/w⌋, ⌊y·srcH/h⌋)`.  The whole
source is mapped onto the whole target, so a non-proportional target distorts
the aspect ratio (no letterboxing, no padding). -/
def jimpResize (m : Raster) (w h : Nat) : Raster :=
  { width := w, height := h
    data := buildData w h (fun x y =>
      let sx := x * m.width / w
      let sy := y * m.height / h
      [chan m sx sy 0, chan m sx sy 1, chan m sx sy 2, chan m sx sy 3]) }

/-- jimp `crop(cx, cy, cw, ch)`: the `cw × ch` sub-rectangle at `(cx, cy)`. -/
def jimpCrop (m : Raster) (cx cy cw ch : Nat) : Raster :=
  { width := cw, height := ch
    data := buildData cw ch (fun x y =>
      [chan m (cx + x) (cy + y) 0, chan m (cx + x) (cy + y) 1,
       chan m (cx + x) (cy + y) 2, chan m (cx + x) (cy + y) 3]) }

/-- One channel of the source-over blend on the 0..255 scale:
`⌊(overlay·α + dest·(255-α)) / 255⌋`. -/
def blendChan (ov dst a : Nat) : Nat := (ov * a + dst * (255 - a)) / 255

/-- jimp `dest.composite(ov, ox, oy)`: blend every overlay pixel onto `dest`
at the given offset using the overlay's alpha as blend weight; overlay pixels
falling outside `dest` are silently dropped; `dest`'s dimensions are kept. -/
def jimpComposite (dest ov : Raster) (ox oy : Int) : Raster :=
  { width := dest.width, height := dest.height
    data := buildData dest.width dest.height (fun x y =>
      let ix : Int := (x : Int) - ox
      let iy : Int := (y : Int) - oy
      if 0 ≤ ix ∧ ix < (ov.width : Int) ∧ 0 ≤ iy ∧ iy < (ov.height : Int) then
        let ux := ix.toNat
        let uy := iy.toNat
        let a := chan ov ux uy 3
        [blendChan (chan ov ux uy 0) (chan dest x y 0) a,
         blendChan (chan ov ux uy 1) (chan dest x y 1) a,
         blendChan (chan ov ux uy 2) (chan dest x y 2) a,
         blendChan (chan ov ux uy 3) (chan dest x y 3) a]
      else
        [chan dest x y 0, chan dest x y 1, chan dest x y 2, chan dest x y 3]) }

/-- jimp `dest.mask(msk, ox, oy)`: multiply each destination pixel's alpha by
the average of the mask pixel's RGB channels (`⌊α·(r+g+b)/765⌋`, the exact
floor of jimp's `α·((r+g+b)/3)/255`); RGB channels and dimensions unchanged;
destination pixels outside the mask's extent are left alone. -/
def jimpMask (dest msk : Raster) (ox oy : Int) : Raster :=
  { width := dest.width, height := dest.height
    data := buildData dest.width dest.height (fun x y =>
      let ix : Int := (x : Int) - ox
      let iy : Int := (y : Int) - oy
      if 0 ≤ ix ∧ ix < (msk.width : Int) ∧ 0 ≤ iy ∧ iy < (msk.height : Int) then
        let ux := ix.toNat
        let uy := iy.toNat
        let s := chan msk ux uy 0 + chan msk ux uy 1 + chan msk ux uy 2
        [chan dest x y 0, chan dest x y 1, chan dest x y 2,
         chan dest x y 3 * s / 765]
      else
        [chan dest x y 0, chan dest x y 1, chan dest x y 2, chan dest x y 3]) }

/-- Bounding box (integer fields so that out-of-range caller boxes are
representable, as JS numbers are). -/
structure BBox where
  x : Int
  y : Int
  w : Int
  h : Int
  deriving DecidableEq, Repr

/-- The worker's activity test: `Math.max(data[idx], data[idx+1], data[idx+2]) > 128`. -/
def activePixel (m : Raster) (x y : Nat) : Bool :=
  128 < max (chan m x y 0) (max (chan m x y 1) (chan m x y 2))

/-- The running min/max state of `maskBBox`'s double loop, folded in the
source's `for y { for x { … } }` order from `(width, height, -1, -1)`. -/
def bboxFold (m : Raster) : Int × Int × Int × Int :=
  (List.range m.height).foldl (fun st y =>
    (List.range m.width).foldl (fun st x =>
      if activePixel m x y then
        (min st.1 (x : Int), min st.2.1 (y : Int),
         max st.2.2.1 (x : Int), max st.2.2.2 (y : Int))
      else st) st)
    ((m.width : Int), (m.height : Int), -1, -1)

/-- `maskBBox`: scan every pixel, track min/max coordinates of active pixels;
`null` when nothing was active (`maxX < 0`), else
`{x: minX, y: minY, w: maxX-minX+1, h: maxY-minY+1}`. -/
def maskBBox (m : Raster) : Option BBox :=
  if (bboxFold m).2.2.1 < 0 then none
  else some ⟨(bboxFold m).1, (bboxFold m).2.1,
    (bboxFold m).2.2.1 - (bboxFold m).1 + 1, (bboxFold m).2.2.2 - (bboxFold m).2.1 + 1⟩

/-- `clampBBox(bb, W, H)`: clamp the box into the canvas,
`x' = clamp(x, 0, W-1)`, `w' = clamp(w, 1, W-x')`, same for `y` / `h`. -/
def clampBBox (bb : BBox) (W H : Int) : BBox :=
  let x := max 0 (min (W - 1) bb.x)
  let y := max 0 (min (H - 1) bb.y)
  let w := max 1 (min (W - x) bb.w)
  let h := max 1 (min (H - y) bb.h)
  ⟨x, y, w, h⟩

/-- The worker's documented default feather radius (`feather(mask, radius = 4)`). -/
def featherDefaultRadius : Nat := 4

/-- Functional reading of `feather`: blur a copy of the mask.  `blur` stands
for jimp's `gaussian` kernel (floating-point, library-side); every theorem
quantifying over `blur` in particular holds for that kernel. -/
def feather (blur : Raster → Nat → Raster) (mask : Raster) (radius : Nat) : Raster :=
  blur mask radius

/-- A heap of jimp objects, making the in-place mutation of `clone()` /
`gaussian()` explicit; references are indices into the cell list. -/
structure Store where
  cells : List Raster

/-- Dereference a jimp object. -/
def Store.read (s : Store) (i : Nat) : Raster := s.cells.getD i ⟨0, 0, []⟩

/-- `mask.clone()`: allocate a fresh cell holding a copy; returns the new
reference. -/
def cloneOp (s : Store) (i : Nat) : Store × Nat :=
  (⟨s.cells ++ [s.read i]⟩, s.cells.length)

/-- `obj.gaussian(radius)`: overwrite the referenced cell in place with its
blurred contents. -/
def gaussianOp (blur : Raster → Nat → Raster) (s : Store) (i radius : Nat) : Store :=
  ⟨s.cells.set i (blur (s.read i) radius)⟩

/-- `feather(mask, radius)` as it executes on the heap:
`const blurred = mask.clone().gaussian(radius); return blurred;`. -/
def featherOp (blur : Raster → Nat → Raster) (s : Store) (mask radius : Nat) :
    Store × Nat :=
  let sc := cloneOp s mask
  (gaussianOp blur sc.1 sc.2 radius, sc.2)

/-- The `POST /process` handler's error outcomes with their HTTP statuses. -/
inductive WorkerError where
  | missingFiles
  | emptyMask
  | missingApiKey
  | modelNoImage
  | processingFailed (details : String)
  deriving DecidableEq, Repr

/-- HTTP status attached to each error response. -/
def WorkerError.status : WorkerError → Nat
  | .missingFiles => 400
  | .emptyMask => 400
  | .missingApiKey => 500
  | .modelNoImage => 502
  | .processingFailed _ => 500

/-- The handler body after the initial `resize(W, H)` normalisation of the
reference and the two masks (worker source from the `maskBBox` calls down to
the final `composite`).  `gen` is the external generative transform applied to
`(distortedPatch, refCrop)`; it yields either a thrown error (caught by the
handler's `catch`, details preserved) or the response's parts list, in which a
part may or may not carry decodable inline image data. -/
def afterResize (blur : Raster → Nat → Raster) (base ref maskA maskB : Raster)
    (apiKey : Option String)
    (gen : Raster → Raster → Except String (List (Option Raster))) :
    Except WorkerError Raster :=
  let W := base.width
  let H := base.height
  match maskBBox maskA, maskBBox maskB with
  | some bbA, some bbB =>
    let A := clampBBox bbA (W : Int) (H : Int)
    let B := clampBBox bbB (W : Int) (H : Int)
    let refCrop := jimpResize (jimpCrop ref B.x.toNat B.y.toNat B.w.toNat B.h.toNat)
      A.w.toNat A.h.toNat
    let distortedPatch := jimpCrop base A.x.toNat A.y.toNat A.w.toNat A.h.toNat
    match apiKey with
    | none => .error .missingApiKey
    | some _ =>
      match gen distortedPatch refCrop with
      | .error e => .error (.processingFailed e)
      | .ok parts =>
        match parts.findSome? id with
        | none => .error .modelNoImage
        | some nano =>
          let nano' := jimpResize nano A.w.toNat A.h.toNat
          let refPatchCanvas := jimpComposite (newJimp W H 0 0 0 0) nano' A.x A.y
          let feathered := feather blur maskA featherDefaultRadius
          let masked := jimpMask refPatchCanvas feathered 0 0
          .ok (jimpComposite base masked 0 0)
  | _, _ => .error .emptyMask

/-- The `POST /process` handler on decoded rasters: take `(W, H)` from the
base, `resize` the reference and both masks to exactly `(W, H)`, then run the
rest of the pipeline. -/
def processRequest (blur : Raster → Nat → Raster) (base ref maskA maskB : Raster)
    (apiKey : Option String)
    (gen : Raster → Raster → Except String (List (Option Raster))) :
    Except WorkerError Raster :=
  afterResize blur base
    (jimpResize ref base.width base.height)
    (jimpResize maskA base.width base.height)
    (jimpResize maskB base.width base.height)
    apiKey gen

/-- One caller-supplied source/reference mask pairing. -/
structure MaskPair where
  sourceMask : Raster
  referenceMask : Raster

/-- Modelled from the spec: step 2–4 of the per-pair procedure — crop the
reference to the reference box `B`, resize to the source box `A`'s footprint,
crop the base to `A` for generation context, invoke the external transform and
resize its untrusted output back to exactly `A.w × A.h`.  The repository's
multi-pair orchestrator body is missing from the source
(`regeneratePatchWithGemini` in the server is an explicit implementation
stub), so this follows the design document's per-pair procedure. -/
def pairRegen (base ref : Raster) (generate : Raster → Raster → Raster)
    (A B : BBox) : Raster :=
  let refPatch := jimpResize (jimpCrop ref B.x.toNat B.y.toNat B.w.toNat B.h.toNat)
    A.w.toNat A.h.toNat
  let distorted := jimpCrop base A.x.toNat A.y.toNat A.w.toNat A.h.toNat
  jimpResize (generate distorted refPatch) A.w.toNat A.h.toNat

/-- Modelled from the spec: step 5–6 of the per-pair procedure — composite the
regenerated patch onto an initially transparent scratch raster at offset `A`,
then mask the scratch with the feathered source mask (radius 4). -/
def pairScratch (blur : Raster → Nat → Raster) (W H : Nat) (base ref : Raster)
    (generate : Raster → Raster → Raster) (p : MaskPair) (A B : BBox) : Raster :=
  let scratch := jimpComposite (newJimp W H 0 0 0 0) (pairRegen base ref generate A B) A.x A.y
  let feathered := feather blur (jimpResize p.sourceMask W H) featherDefaultRadius
  jimpMask scratch feathered 0 0

/-- Modelled from the spec: one iteration of the per-pair loop on the running
canvas — resample both masks to the base canvas, extract and clamp both
bounding boxes, abort the request with the empty-mask error if either mask has
no active pixel, otherwise composite the pair's masked scratch raster onto the
canvas. -/
def stepPair (blur : Raster → Nat → Raster) (W H : Nat) (base ref : Raster)
    (generate : Raster → Raster → Raster) (canvas : Raster) (p : MaskPair) :
    Except WorkerError Raster :=
  match maskBBox (jimpResize p.sourceMask W H), maskBBox (jimpResize p.referenceMask W H) with
  | some bbA, some bbB =>
    .ok (jimpComposite canvas
      (pairScratch blur W H base ref generate p
        (clampBBox bbA (W : Int) (H : Int)) (clampBBox bbB (W : Int) (H : Int))) 0 0)
  | _, _ => .error .emptyMask

/-- Modelled from the spec: the multi-pair orchestrator
`regenerate(base, reference, pairs, generate)` — resample the reference to the
base's dimensions, then fold the per-pair procedure over the pairs strictly in
list order, accumulating into the single request-scoped canvas that starts as
a copy of the base.  The repository's source only contains this loop as the
server's `regeneratePatchWithGemini` stub, so the body follows the design
document. -/
def regenerate (blur : Raster → Nat → Raster) (base ref : Raster)
    (pairs : List MaskPair) (generate : Raster → Raster → Raster) :
    Except WorkerError Raster :=
  pairs.foldlM
    (stepPair blur base.width base.height base (jimpResize ref base.width base.height) generate)
    base

/-- The server variant's regeneration stub, verbatim: it ignores the
reference, the mask pairs and the mode, and returns (a copy of) the source
bytes. -/
def regeneratePatchWithGemini (sourcePNG _refPNG : List Nat)
    (_pairs : List (Nat × List Nat × List Nat)) (_mode : String) : List Nat :=
  sourcePNG

/-- Modelled from the spec: contain/center-fit resampling — scale the source
to fit within `(w, h)` without distortion (uniform scale factor
`min (w/srcW) (h/srcH)`), center the scaled image, and pad the remainder with
transparent black.  Stated from the design document's words for comparison
with the worker's actual `resize` call; it is not part of the worker source. -/
def containFit (m : Raster) (w h : Nat) : Raster :=
  let tw := if w * m.height ≤ h * m.width then w else m.width * h / m.height
  let th := if w * m.height ≤ h * m.width then m.height * w / m.width else h
  let ox := (w - tw) / 2
  let oy := (h - th) / 2
  { width := w, height := h
    data := buildData w h (fun x y =>
      if ox ≤ x ∧ x < ox + tw ∧ oy ≤ y ∧ y < oy + th then
        let sx := (x - ox) * m.width / tw
        let sy := (y - oy) * m.height / th
        [chan m sx sy 0, chan m sx sy 1, chan m sx sy 2, chan m sx sy 3]
      else [0, 0, 0, 0]) }

/-! ### Concrete fixtures used to instantiate the theorems below -/

/-- 1×1 all-white opaque raster (an "everything active" mask). -/
def white1 : Raster := ⟨1, 1, [255, 255, 255, 255]⟩

/-- 1×1 all-black opaque raster (an empty mask: no active pixel). -/
def black1 : Raster := ⟨1, 1, [0, 0, 0, 255]⟩

/-- 1×1 opaque gray raster (a base image). -/
def gray1 : Raster := ⟨1, 1, [128, 128, 128, 255]⟩

/-- 1×1 opaque raster standing for a decoded model output patch. -/
def nano1 : Raster := ⟨1, 1, [1, 2, 3, 255]⟩

/-- 1×1 opaque red raster standing for a generated patch. -/
def red1 : Raster := ⟨1, 1, [200, 10, 10, 255]⟩

/-- 2×1 all-white opaque raster (a wide source for resampling comparisons). -/
def white21 : Raster := ⟨2, 1, [255, 255, 255, 255, 255, 255, 255, 255]⟩

/-- 2×2 mask whose single active pixel is at (1, 0). -/
def mask2x2 : Raster := ⟨2, 2, [0, 0, 0, 0, 200, 0, 0, 0, 0, 0, 0, 0, 0, 0, 0, 0]⟩

/-- 2×2 mask with the same RGB channels as `mask2x2` but different alpha. -/
def mask2x2a : Raster := ⟨2, 2, [0, 0, 0, 255, 200, 0, 0, 7, 0, 0, 0, 9, 0, 0, 0, 0]⟩

/-- A trivial dimension-preserving stand-in for the gaussian kernel, used only
to instantiate blur-generic theorems at a concrete value. -/
def blur0 : Raster → Nat → Raster := fun m _ => m

/-- A generation outcome carrying one image part. -/
def genOkNano : Raster → Raster → Except String (List (Option Raster)) :=
  fun _ _ => .ok [some nano1]

/-- A mask pair whose two masks are fully active. -/
def pairWW : MaskPair := ⟨white1, white1⟩

/-- A two-cell heap for exercising the feathering filter's copy discipline. -/
def store0 : Store := ⟨[white1, black1]⟩

/-! ### Helper lemmas -/

lemma clampBBox_x (bb : BBox) (W H : Int) :
    (clampBBox bb W H).x = max 0 (min (W - 1) bb.x) := rfl

lemma clampBBox_y (bb : BBox) (W H : Int) :
    (clampBBox bb W H).y = max 0 (min (H - 1) bb.y) := rfl

lemma clampBBox_w (bb : BBox) (W H : Int) :
    (clampBBox bb W H).w = max 1 (min (W - max 0 (min (W - 1) bb.x)) bb.w) := rfl

lemma clampBBox_h (bb : BBox) (W H : Int) :
    (clampBBox bb W H).h = max 1 (min (H - max 0 (min (H - 1) bb.y)) bb.h) := rfl

/-- Shared bounds for `clampBBox` on a non-degenerate canvas. -/
lemma clampBBox_bounds (bb : BBox) (W H : Int) (hW : 1 ≤ W) (hH : 1 ≤ H) :
    0 ≤ (clampBBox bb W H).x ∧ (clampBBox bb W H).x ≤ W - 1 ∧
    1 ≤ (clampBBox bb W H).w ∧ (clampBBox bb W H).w ≤ W - (clampBBox bb W H).x ∧
    0 ≤ (clampBBox bb W H).y ∧ (clampBBox bb W H).y ≤ H - 1 ∧
    1 ≤ (clampBBox bb W H).h ∧ (clampBBox bb W H).h ≤ H - (clampBBox bb W H).y := by
  simp only [clampBBox_x, clampBBox_y, clampBBox_w, clampBBox_h]
  omega

/-- Row-major list of all pixel coordinates of a raster, `x` varying fastest. -/
def pixelList (m : Raster) : List (Nat × Nat) :=
  ((List.range m.height).map (fun y => (List.range m.width).map (fun x => (x, y)))).flatten

lemma mem_pixelList {m : Raster} {p : Nat × Nat} :
    p ∈ pixelList m ↔ p.1 < m.width ∧ p.2 < m.height := by
  obtain ⟨x, y⟩ := p
  rw [pixelList]
  constructor
  · intro hp
    obtain ⟨l, hl, hx⟩ := List.mem_flatten.mp hp
    obtain ⟨y', hy', rfl⟩ := List.mem_map.mp hl
    obtain ⟨x', hx', heq⟩ := List.mem_map.mp hx
    cases heq
    exact ⟨List.mem_range.mp hx', List.mem_range.mp hy'⟩
  · rintro ⟨hx, hy⟩
    refine List.mem_flatten.mpr ⟨(List.range m.width).map (fun x => (x, y)), ?_, ?_⟩
    · exact List.mem_map.mpr ⟨y, List.mem_range.mpr hy, rfl⟩
    · exact List.mem_map.mpr ⟨x, List.mem_range.mpr hx, rfl⟩

/-- The `bboxFold` update as a single step on one coordinate pair. -/
def bboxStep (m : Raster) (st : Int × Int × Int × Int) (p : Nat × Nat) :
    Int × Int × Int × Int :=
  if activePixel m p.1 p.2 then
    (min st.1 (p.1 : Int), min st.2.1 (p.2 : Int),
     max st.2.2.1 (p.1 : Int), max st.2.2.2 (p.2 : Int))
  else st

lemma bboxFold_eq_foldl (m : Raster) :
    bboxFold m = (pixelList m).foldl (bboxStep m)
      ((m.width : Int), (m.height : Int), -1, -1) := by
  rw [bboxFold, pixelList, List.foldl_flatten, List.foldl_map]
  congr 1
  funext st y
  rw [List.foldl_map]
  rfl

/-- The pixels the scan classifies as active, in scan order. -/
def activeList (m : Raster) : List (Nat × Nat) :=
  (pixelList m).filter (fun p => activePixel m p.1 p.2)

lemma mem_activeList {m : Raster} {p : Nat × Nat} :
    p ∈ activeList m ↔ p.1 < m.width ∧ p.2 < m.height ∧ activePixel m p.1 p.2 = true := by
  simp only [activeList, List.mem_filter, mem_pixelList]
  tauto

/-- Splitting the four-component fold into four independent min/max folds over
the active pixels. -/
lemma foldl_bboxStep_split (m : Raster) (l : List (Nat × Nat)) (st : Int × Int × Int × Int) :
    l.foldl (bboxStep m) st =
      (((l.filter (fun p => activePixel m p.1 p.2)).map (fun p => (p.1 : Int))).foldl min st.1,
       ((l.filter (fun p => activePixel m p.1 p.2)).map (fun p => (p.2 : Int))).foldl min st.2.1,
       ((l.filter (fun p => activePixel m p.1 p.2)).map (fun p => (p.1 : Int))).foldl max st.2.2.1,
       ((l.filter (fun p => activePixel m p.1 p.2)).map (fun p => (p.2 : Int))).foldl max st.2.2.2) := by
  induction l generalizing st with
  | nil => rfl
  | cons a l ih =>
    by_cases ha : activePixel m a.1 a.2
    · simp only [List.foldl_cons, List.filter_cons, ha, if_pos, List.map_cons, bboxStep]
      rw [ih]
    · simp only [List.foldl_cons, List.filter_cons, bboxStep, ha]
      simp only [Bool.false_eq_true, if_false, ite_false]
      rw [ih]

lemma foldl_min_le_init (a : Int) (l : List Int) : l.foldl min a ≤ a := by
  induction l generalizing a with
  | nil => exact le_refl a
  | cons b l ih => exact le_trans (ih (min a b)) (min_le_left a b)

lemma foldl_min_le_mem {b : Int} {l : List Int} (hb : b ∈ l) (a : Int) :
    l.foldl min a ≤ b := by
  induction l generalizing a with
  | nil => cases hb
  | cons c l ih =>
    simp only [List.foldl_cons]
    rcases List.mem_cons.mp hb with rfl | hb
    · exact le_trans (foldl_min_le_init (min a b) l) (min_le_right a b)
    · exact ih hb (min a c)

lemma foldl_min_mem (a : Int) (l : List Int) : l.foldl min a = a ∨ l.foldl min a ∈ l := by
  induction l generalizing a with
  | nil => exact Or.inl rfl
  | cons c l ih =>
    rcases ih (min a c) with h | h
    · rcases min_cases a c with ⟨hm, _⟩ | ⟨hm, _⟩
      · exact Or.inl (by rw [List.foldl_cons, h, hm])
      · exact Or.inr (by rw [List.foldl_cons, h, hm]; exact List.mem_cons_self c l)
    · exact Or.inr (List.mem_cons_of_mem c h)

lemma le_foldl_max_init (a : Int) (l : List Int) : a ≤ l.foldl max a := by
  induction l generalizing a with
  | nil => exact le_refl a
  | cons b l ih => exact le_trans (le_max_left a b) (ih (max a b))

lemma le_foldl_max_mem {b : Int} {l : List Int} (hb : b ∈ l) (a : Int) :
    b ≤ l.foldl max a := by
  induction l generalizing a with
  | nil => cases hb
  | cons c l ih =>
    simp only [List.foldl_cons]
    rcases List.mem_cons.mp hb with rfl | hb
    · exact le_trans (le_max_right a b) (le_foldl_max_init (max a b) l)
    · exact ih hb (max a c)

lemma foldl_max_mem (a : Int) (l : List Int) : l.foldl max a = a ∨ l.foldl max a ∈ l := by
  induction l generalizing a with
  | nil => exact Or.inl rfl
  | cons c l ih =>
    rcases ih (max a c) with h | h
    · rcases max_cases a c with ⟨hm, _⟩ | ⟨hm, _⟩
      · exact Or.inl (by rw [List.foldl_cons, h, hm])
      · exact Or.inr (by rw [List.foldl_cons, h, hm]; exact List.mem_cons_self c l)
    · exact Or.inr (List.mem_cons_of_mem c h)

/-- `bboxFold` computed componentwise from the active-pixel list. -/
lemma bboxFold_char (m : Raster) :
    bboxFold m =
      (((activeList m).map (fun p => (p.1 : Int))).foldl min (m.width : Int),
       ((activeList m).map (fun p => (p.2 : Int))).foldl min (m.height : Int),
       ((activeList m).map (fun p => (p.1 : Int))).foldl max (-1),
       ((activeList m).map (fun p => (p.2 : Int))).foldl max (-1)) := by
  rw [bboxFold_eq_foldl, foldl_bboxStep_split]
  rfl

lemma bboxFold_minX (m : Raster) :
    (bboxFold m).1 = ((activeList m).map (fun p => (p.1 : Int))).foldl min (m.width : Int) := by
  rw [bboxFold_char]

lemma bboxFold_minY (m : Raster) :
    (bboxFold m).2.1 = ((activeList m).map (fun p => (p.2 : Int))).foldl min (m.height : Int) := by
  rw [bboxFold_char]

lemma bboxFold_maxX (m : Raster) :
    (bboxFold m).2.2.1 = ((activeList m).map (fun p => (p.1 : Int))).foldl max (-1) := by
  rw [bboxFold_char]

lemma bboxFold_maxY (m : Raster) :
    (bboxFold m).2.2.2 = ((activeList m).map (fun p => (p.2 : Int))).foldl max (-1) := by
  rw [bboxFold_char]

lemma maskBBox_eq_none_iff (m : Raster) :
    maskBBox m = none ↔ (bboxFold m).2.2.1 < 0 := by
  by_cases h : (bboxFold m).2.2.1 < 0 <;> simp [maskBBox, h]

lemma maskBBox_eq_some (m : Raster) (bb : BBox) (h : maskBBox m = some bb) :
    ¬(bboxFold m).2.2.1 < 0 ∧
    bb = ⟨(bboxFold m).1, (bboxFold m).2.1,
      (bboxFold m).2.2.1 - (bboxFold m).1 + 1,
      (bboxFold m).2.2.2 - (bboxFold m).2.1 + 1⟩ := by
  by_cases hc : (bboxFold m).2.2.1 < 0
  · simp [maskBBox, hc] at h
  · simp only [maskBBox, hc, if_false, ite_false, Option.some.injEq] at h
    exact ⟨hc, h.symm⟩

/-! ### C1: `maskBBox` correctness -/

/-- C1.  For every mask raster, `maskBBox` returns `none` exactly when no
pixel is active (`max(R,G,B) > 128`); otherwise it returns the box
`{x: minX, y: minY, w: maxX-minX+1, h: maxY-minY+1}`: every active pixel lies
inside the returned box, and each of the four box edges is attained by some
active pixel, so no smaller box contains all active pixels. -/
theorem maskBBox_correct (m : Raster) :
    (maskBBox m = none ↔
      ∀ x, x < m.width → ∀ y, y < m.height → activePixel m x y = false) ∧
    (∀ bb, maskBBox m = some bb →
      (∀ x, x < m.width → ∀ y, y < m.height → activePixel m x y = true →
          bb.x ≤ (x : Int) ∧ (x : Int) ≤ bb.x + bb.w - 1 ∧
          bb.y ≤ (y : Int) ∧ (y : Int) ≤ bb.y + bb.h - 1) ∧
      (∃ x y, x < m.width ∧ y < m.height ∧ activePixel m x y = true ∧
        (x : Int) = bb.x) ∧
      (∃ x y, x < m.width ∧ y < m.height ∧ activePixel m x y = true ∧
        (x : Int) = bb.x + bb.w - 1) ∧
      (∃ x y, x < m.width ∧ y < m.height ∧ activePixel m x y = true ∧
        (y : Int) = bb.y) ∧
      (∃ x y, x < m.width ∧ y < m.height ∧ activePixel m x y = true ∧
        (y : Int) = bb.y + bb.h - 1)) := by
  constructor
  · rw [maskBBox_eq_none_iff, bboxFold_maxX]
    constructor
    · intro hlt x hx y hy
      by_contra hact
      have hmem : (x, y) ∈ activeList m :=
        mem_activeList.mpr ⟨hx, hy, Bool.of_not_eq_false hact⟩
      have hxs : ((x : Int)) ∈ (activeList m).map (fun p => (p.1 : Int)) :=
        List.mem_map_of_mem _ hmem
      have := le_foldl_max_mem hxs (-1)
      omega
    · intro hall
      have hnil : activeList m = [] := by
        cases hal : activeList m with
        | nil => rfl
        | cons p l =>
          exfalso
          have hmem : p ∈ activeList m := by
            rw [hal]; exact List.mem_cons_self p l
          obtain ⟨hx, hy, hact⟩ := mem_activeList.mp hmem
          rw [hall p.1 hx p.2 hy] at hact
          cases hact
      rw [hnil]
      simp
  · intro bb hbb
    obtain ⟨hnn, hbbv⟩ := maskBBox_eq_some m bb hbb
    rw [bboxFold_maxX] at hnn
    rw [bboxFold_minX, bboxFold_minY, bboxFold_maxX, bboxFold_maxY] at hbbv
    have hne : activeList m ≠ [] := by
      intro hnil
      rw [hnil] at hnn
      simp at hnn
    obtain ⟨p0, hp0⟩ := List.exists_mem_of_ne_nil _ hne
    obtain ⟨hp0x, hp0y, hp0a⟩ := mem_activeList.mp hp0
    have hx0 : ((p0.1 : Int)) ∈ (activeList m).map (fun p => (p.1 : Int)) :=
      List.mem_map_of_mem _ hp0
    have hy0 : ((p0.2 : Int)) ∈ (activeList m).map (fun p => (p.2 : Int)) :=
      List.mem_map_of_mem _ hp0
    subst hbbv
    dsimp only
    refine ⟨?_, ?_, ?_, ?_, ?_⟩
    · intro x hx y hy hact
      have hmem : (x, y) ∈ activeList m := mem_activeList.mpr ⟨hx, hy, hact⟩
      have hxs : ((x : Int)) ∈ (activeList m).map (fun p => (p.1 : Int)) :=
        List.mem_map_of_mem _ hmem
      have hys : ((y : Int)) ∈ (activeList m).map (fun p => (p.2 : Int)) :=
        List.mem_map_of_mem _ hmem
      have h1 := foldl_min_le_mem hxs (m.width : Int)
      have h2 := le_foldl_max_mem hxs (-1)
      have h3 := foldl_min_le_mem hys (m.height : Int)
      have h4 := le_foldl_max_mem hys (-1)
      refine ⟨h1, by omega, h3, by omega⟩
    · rcases foldl_min_mem (m.width : Int) ((activeList m).map (fun p => (p.1 : Int)))
        with h | h
      · exfalso
        have := foldl_min_le_mem hx0 (m.width : Int)
        omega
      · obtain ⟨p, hp, hpv⟩ := List.mem_map.mp h
        obtain ⟨hpx, hpy, hpa⟩ := mem_activeList.mp hp
        exact ⟨p.1, p.2, hpx, hpy, hpa, hpv⟩
    · rcases foldl_max_mem (-1) ((activeList m).map (fun p => (p.1 : Int)))
        with h | h
      · exfalso; omega
      · obtain ⟨p, hp, hpv⟩ := List.mem_map.mp h
        obtain ⟨hpx, hpy, hpa⟩ := mem_activeList.mp hp
        exact ⟨p.1, p.2, hpx, hpy, hpa, by omega⟩
    · rcases foldl_min_mem (m.height : Int) ((activeList m).map (fun p => (p.2 : Int)))
        with h | h
      · exfalso
        have := foldl_min_le_mem hy0 (m.height : Int)
        omega
      · obtain ⟨p, hp, hpv⟩ := List.mem_map.mp h
        obtain ⟨hpx, hpy, hpa⟩ := mem_activeList.mp hp
        exact ⟨p.1, p.2, hpx, hpy, hpa, hpv⟩
    · rcases foldl_max_mem (-1) ((activeList m).map (fun p => (p.2 : Int)))
        with h | h
      · exfalso
        have := le_foldl_max_mem hy0 (-1)
        omega
      · obtain ⟨p, hp, hpv⟩ := List.mem_map.mp h
        obtain ⟨hpx, hpy, hpa⟩ := mem_activeList.mp hp
        exact ⟨p.1, p.2, hpx, hpy, hpa, by omega⟩

/-- Witness for C1: `maskBBox_correct` instantiated at `mask2x2`, whose single
active pixel is at (1, 0) and whose extracted box is `{1, 0, 1, 1}`. -/
theorem maskBBox_correct_witness :
    (∀ x, x < mask2x2.width → ∀ y, y < mask2x2.height → activePixel mask2x2 x y = true →
        (1 : Int) ≤ (x : Int) ∧ (x : Int) ≤ 1 + 1 - 1 ∧
        (0 : Int) ≤ (y : Int) ∧ (y : Int) ≤ 0 + 1 - 1) ∧
    (∃ x y, x < mask2x2.width ∧ y < mask2x2.height ∧ activePixel mask2x2 x y = true ∧
      (x : Int) = 1) ∧
    (∃ x y, x < mask2x2.width ∧ y < mask2x2.height ∧ activePixel mask2x2 x y = true ∧
      (x : Int) = 1 + 1 - 1) ∧
    (∃ x y, x < mask2x2.width ∧ y < mask2x2.height ∧ activePixel mask2x2 x y = true ∧
      (y : Int) = 0) ∧
    (∃ x y, x < mask2x2.width ∧ y < mask2x2.height ∧ activePixel mask2x2 x y = true ∧
      (y : Int) = 0 + 1 - 1) :=
  (maskBBox_correct mask2x2).2 ⟨1, 0, 1, 1⟩ (by decide)

/-! ### C6: `clampBBox` stays inside the canvas -/

/-- C6.  For every input box and canvas dimensions `W ≥ 1`, `H ≥ 1`,
`clampBBox` returns a box with `0 ≤ x ≤ W-1`, `1 ≤ w ≤ W-x`, `0 ≤ y ≤ H-1`,
`1 ≤ h ≤ H-y` — hence `x+w ≤ W` and `y+h ≤ H`, fully inside
`[0,W) × [0,H)` — computed as `x' = clamp(x, 0, W-1)`, `w' = clamp(w, 1, W-x')`
and likewise for `y`/`h`, regardless of an out-of-range input box. -/
theorem clampBBox_inside (bb : BBox) (W H : Int) (hW : 1 ≤ W) (hH : 1 ≤ H) :
    0 ≤ (clampBBox bb W H).x ∧ (clampBBox bb W H).x ≤ W - 1 ∧
    1 ≤ (clampBBox bb W H).w ∧ (clampBBox bb W H).w ≤ W - (clampBBox bb W H).x ∧
    0 ≤ (clampBBox bb W H).y ∧ (clampBBox bb W H).y ≤ H - 1 ∧
    1 ≤ (clampBBox bb W H).h ∧ (clampBBox bb W H).h ≤ H - (clampBBox bb W H).y ∧
    (clampBBox bb W H).x + (clampBBox bb W H).w ≤ W ∧
    (clampBBox bb W H).y + (clampBBox bb W H).h ≤ H ∧
    (clampBBox bb W H).x = max 0 (min (W - 1) bb.x) ∧
    (clampBBox bb W H).w = max 1 (min (W - (clampBBox bb W H).x) bb.w) ∧
    (clampBBox bb W H).y = max 0 (min (H - 1) bb.y) ∧
    (clampBBox bb W H).h = max 1 (min (H - (clampBBox bb W H).y) bb.h) := by
  simp only [clampBBox_x, clampBBox_y, clampBBox_w, clampBBox_h, eq_self_iff_true,
    true_and, and_true]
  omega

/-- Witness for C6: the out-of-range box `{-5, 10, 99, 0}` clamped into an
8×4 canvas. -/
theorem clampBBox_inside_witness :
    0 ≤ (clampBBox ⟨-5, 10, 99, 0⟩ 8 4).x ∧ (clampBBox ⟨-5, 10, 99, 0⟩ 8 4).x ≤ 8 - 1 ∧
    1 ≤ (clampBBox ⟨-5, 10, 99, 0⟩ 8 4).w ∧
    (clampBBox ⟨-5, 10, 99, 0⟩ 8 4).w ≤ 8 - (clampBBox ⟨-5, 10, 99, 0⟩ 8 4).x ∧
    0 ≤ (clampBBox ⟨-5, 10, 99, 0⟩ 8 4).y ∧ (clampBBox ⟨-5, 10, 99, 0⟩ 8 4).y ≤ 4 - 1 ∧
    1 ≤ (clampBBox ⟨-5, 10, 99, 0⟩ 8 4).h ∧
    (clampBBox ⟨-5, 10, 99, 0⟩ 8 4).h ≤ 4 - (clampBBox ⟨-5, 10, 99, 0⟩ 8 4).y ∧
    (clampBBox ⟨-5, 10, 99, 0⟩ 8 4).x + (clampBBox ⟨-5, 10, 99, 0⟩ 8 4).w ≤ 8 ∧
    (clampBBox ⟨-5, 10, 99, 0⟩ 8 4).y + (clampBBox ⟨-5, 10, 99, 0⟩ 8 4).h ≤ 4 ∧
    (clampBBox ⟨-5, 10, 99, 0⟩ 8 4).x = max 0 (min (8 - 1) (-5 : Int)) ∧
    (clampBBox ⟨-5, 10, 99, 0⟩ 8 4).w =
      max 1 (min (8 - (clampBBox ⟨-5, 10, 99, 0⟩ 8 4).x) 99) ∧
    (clampBBox ⟨-5, 10, 99, 0⟩ 8 4).y = max 0 (min (4 - 1) (10 : Int)) ∧
    (clampBBox ⟨-5, 10, 99, 0⟩ 8 4).h =
      max 1 (min (4 - (clampBBox ⟨-5, 10, 99, 0⟩ 8 4).y) 0) :=
  clampBBox_inside ⟨-5, 10, 99, 0⟩ 8 4 (by norm_num) (by norm_num)

/-! ### C10: the alpha channel never influences `maskBBox` -/

/-- C10.  For any two mask rasters of equal dimensions whose R, G, B channels
agree at every pixel, `maskBBox` returns identical results; the activity test
reads only the first three channels, so the alpha channel (which may differ
arbitrarily) never influences the extracted bounding box. -/
theorem maskBBox_alpha_independent (m m' : Raster)
    (hw : m.width = m'.width) (hh : m.height = m'.height)
    (hrgb : ∀ x, x < m.width → ∀ y, y < m.height → ∀ c, c < 3 →
      chan m x y c = chan m' x y c) :
    maskBBox m = maskBBox m' := by
  have hact : ∀ x y, x < m.width → y < m.height →
      activePixel m x y = activePixel m' x y := by
    intro x y hx hy
    unfold activePixel
    rw [hrgb x hx y hy 0 (by omega), hrgb x hx y hy 1 (by omega),
      hrgb x hx y hy 2 (by omega)]
  have hpl : pixelList m = pixelList m' := by
    rw [pixelList, pixelList, hw, hh]
  have hfold : bboxFold m = bboxFold m' := by
    rw [bboxFold_eq_foldl, bboxFold_eq_foldl, ← hpl, ← hw, ← hh]
    apply List.foldl_ext
    intro st p hp
    obtain ⟨hx, hy⟩ := mem_pixelList.mp hp
    unfold bboxStep
    rw [hact p.1 p.2 hx hy]
  unfold maskBBox
  rw [hfold]

/-- Witness for C10: `mask2x2` and `mask2x2a` share RGB channels but have
different alpha channels, and `maskBBox` agrees on them. -/
theorem maskBBox_alpha_independent_witness :
    maskBBox mask2x2 = maskBBox mask2x2a ∧ mask2x2 ≠ mask2x2a :=
  ⟨maskBBox_alpha_independent mask2x2 mask2x2a (by decide) (by decide) (by decide),
    by decide⟩

/-! ### C9: feathering operates on a copy -/

lemma getD_append_lt (l l' : List Raster) (i : Nat) (hi : i < l.length) (d : Raster) :
    (l ++ l').getD i d = l.getD i d := by
  simp [List.getD_eq_getElem?_getD, List.getElem?_append_left hi]

lemma getD_snoc_self (l : List Raster) (a d : Raster) :
    (l ++ [a]).getD l.length d = a := by
  simp [List.getD_eq_getElem?_getD, List.getElem?_append_right (le_refl l.length)]

lemma set_snoc_self (l : List Raster) (a b : Raster) :
    (l ++ [a]).set l.length b = l ++ [b] := by
  rw [List.set_append_right _ _ (le_refl l.length)]
  simp

/-- C9.  `feather` blurs a clone: it returns a reference to a fresh raster
holding the blurred mask (at the default radius 4 in the worker), and the
original mask raster is unchanged — every pixel of the original has the same
value after the call as before it.  `blur` abstracts the jimp gaussian kernel,
so this holds for that kernel in particular. -/
theorem feather_operates_on_copy (blur : Raster → Nat → Raster) (s : Store)
    (mask radius : Nat) (hm : mask < s.cells.length) :
    (featherOp blur s mask radius).1.read mask = s.read mask ∧
    (featherOp blur s mask radius).2 ≠ mask ∧
    (featherOp blur s mask radius).1.read (featherOp blur s mask radius).2 =
      blur (s.read mask) radius ∧
    featherDefaultRadius = 4 := by
  unfold featherOp cloneOp gaussianOp Store.read
  dsimp only
  refine ⟨?_, ?_, ?_, rfl⟩
  · rw [getD_snoc_self, set_snoc_self, getD_append_lt _ _ _ hm]
  · omega
  · rw [getD_snoc_self, set_snoc_self, getD_snoc_self]

/-- Witness for C9: feathering cell 0 of the concrete two-cell heap leaves
cell 0 unchanged and returns a fresh cell holding the blurred copy. -/
theorem feather_operates_on_copy_witness :
    (featherOp blur0 store0 0 4).1.read 0 = store0.read 0 ∧
    (featherOp blur0 store0 0 4).2 ≠ 0 ∧
    (featherOp blur0 store0 0 4).1.read (featherOp blur0 store0 0 4).2 =
      blur0 (store0.read 0) 4 ∧
    featherDefaultRadius = 4 :=
  feather_operates_on_copy blur0 store0 0 4 (by decide)

/-! ### C2: the fixed-canvas contract -/

/-- C2.  Whatever the reference/mask inputs and however the external call
turns out, a successful run of the pipeline returns a raster whose dimensions
are exactly the base raster's; and compositing never alters the destination
canvas's dimensions. -/
theorem processRequest_fixed_canvas (blur : Raster → Nat → Raster)
    (base ref maskA maskB : Raster) (apiKey : Option String)
    (gen : Raster → Raster → Except String (List (Option Raster))) :
    (∀ out, processRequest blur base ref maskA maskB apiKey gen = .ok out →
      out.width = base.width ∧ out.height = base.height) ∧
    (∀ dest ov ox oy, (jimpComposite dest ov ox oy).width = dest.width ∧
      (jimpComposite dest ov ox oy).height = dest.height) := by
  refine ⟨?_, fun dest ov ox oy => ⟨rfl, rfl⟩⟩
  intro out h
  unfold processRequest afterResize at h
  dsimp only at h
  repeat' split at h
  any_goals cases h
  exact ⟨rfl, rfl⟩

/-- Witness for C2: a complete 1×1 run (white masks, present key, one image
part in the response) returns the raster `⟨1, 1, [1, 2, 3, 255]⟩`, whose
dimensions equal the 1×1 base's. -/
theorem processRequest_fixed_canvas_witness :
    (⟨1, 1, [1, 2, 3, 255]⟩ : Raster).width = gray1.width ∧
    (⟨1, 1, [1, 2, 3, 255]⟩ : Raster).height = gray1.height :=
  (processRequest_fixed_canvas blur0 gray1 white1 white1 white1 (some "k") genOkNano).1
    ⟨1, 1, [1, 2, 3, 255]⟩ (by rfl)

/-! ### C3: an empty mask aborts the whole request -/

lemma stepPair_of_empty (blur : Raster → Nat → Raster) (W H : Nat)
    (base ref : Raster) (generate : Raster → Raster → Raster) (canvas : Raster)
    (p : MaskPair)
    (hbad : maskBBox (jimpResize p.sourceMask W H) = none ∨
            maskBBox (jimpResize p.referenceMask W H) = none) :
    stepPair blur W H base ref generate canvas p = .error .emptyMask := by
  unfold stepPair
  rcases hbad with h | h
  · rw [h]
  · cases hA : maskBBox (jimpResize p.sourceMask W H) <;> simp [h]

lemma stepPair_cases (blur : Raster → Nat → Raster) (W H : Nat)
    (base ref : Raster) (generate : Raster → Raster → Raster) (canvas : Raster)
    (p : MaskPair) :
    (∃ r, stepPair blur W H base ref generate canvas p = .ok r) ∨
    stepPair blur W H base ref generate canvas p = .error .emptyMask := by
  unfold stepPair
  cases maskBBox (jimpResize p.sourceMask W H) <;>
    cases maskBBox (jimpResize p.referenceMask W H) <;> simp

lemma regenerate_empty_pair (blur : Raster → Nat → Raster) (base ref : Raster)
    (generate : Raster → Raster → Raster) (pairs : List MaskPair) (p : MaskPair)
    (hp : p ∈ pairs)
    (hbad : maskBBox (jimpResize p.sourceMask base.width base.height) = none ∨
            maskBBox (jimpResize p.referenceMask base.width base.height) = none) :
    regenerate blur base ref pairs generate = .error .emptyMask := by
  unfold regenerate
  suffices h : ∀ canvas, pairs.foldlM (stepPair blur base.width base.height base
      (jimpResize ref base.width base.height) generate) canvas = .error .emptyMask by
    exact h base
  induction pairs with
  | nil => cases hp
  | cons q pairs ih =>
    intro canvas
    rw [List.foldlM_cons]
    rcases List.mem_cons.mp hp with rfl | hp'
    · rw [stepPair_of_empty _ _ _ _ _ _ _ _ hbad]
      rfl
    · rcases stepPair_cases blur base.width base.height base
        (jimpResize ref base.width base.height) generate canvas q with ⟨r, hr⟩ | hr
      · rw [hr]
        exact ih hp' r
      · rw [hr]
        rfl

/-- C3.  If bounding-box extraction on the (resampled) source or reference
mask finds no active pixel, the whole request fails with the empty-mask error,
a 400-class caller input error; no output raster is produced (the result is an
`error`, not an `ok`).  The same holds for any pair of the multi-pair
orchestrator loop: an empty-mask pair aborts the whole fold — it is never
silently skipped. -/
theorem emptyMask_aborts (blur : Raster → Nat → Raster)
    (base ref maskA maskB : Raster) (apiKey : Option String)
    (gen : Raster → Raster → Except String (List (Option Raster)))
    (pairs : List MaskPair) (generate : Raster → Raster → Raster) :
    ((maskBBox (jimpResize maskA base.width base.height) = none ∨
      maskBBox (jimpResize maskB base.width base.height) = none) →
      processRequest blur base ref maskA maskB apiKey gen = .error .emptyMask) ∧
    (∀ p ∈ pairs,
      (maskBBox (jimpResize p.sourceMask base.width base.height) = none ∨
       maskBBox (jimpResize p.referenceMask base.width base.height) = none) →
      regenerate blur base ref pairs generate = .error .emptyMask) ∧
    WorkerError.emptyMask.status = 400 := by
  refine ⟨?_, ?_, rfl⟩
  · intro h
    unfold processRequest afterResize
    rcases h with h | h
    · rw [h]
    · cases hA : maskBBox (jimpResize maskA base.width base.height) <;> simp [h, hA]
  · intro p hp hbad
    exact regenerate_empty_pair blur base ref generate pairs p hp hbad

/-- Witness for C3: the all-black 1×1 mask aborts both the single-pair
handler and the two-pair orchestrator loop with the empty-mask error. -/
theorem emptyMask_aborts_witness :
    processRequest blur0 gray1 white1 black1 white1 (some "k") genOkNano =
      .error .emptyMask ∧
    regenerate blur0 gray1 white1 [pairWW, ⟨black1, white1⟩] (fun _ _ => red1) =
      .error .emptyMask :=
  ⟨(emptyMask_aborts blur0 gray1 white1 black1 white1 (some "k") genOkNano []
      (fun _ _ => red1)).1 (Or.inl (by rfl)),
   (emptyMask_aborts blur0 gray1 white1 black1 white1 (some "k") genOkNano
      [pairWW, ⟨black1, white1⟩] (fun _ _ => red1)).2.1 ⟨black1, white1⟩
      (by simp) (Or.inl (by rfl))⟩

/-! ### C7: external-transform failures are typed 5xx errors -/

/-- C7.  Once the request has non-empty masks and a configured key, a failing
external transform can never surface as a success: a thrown error is caught
and reported as the 500-class processing failure carrying the original error
detail verbatim, and a response whose parts contain no image data is the typed
502 model-returned-no-image error.  Both are 5xx-class; neither path can
return an `ok` raster. -/
theorem generation_failure_typed (blur : Raster → Nat → Raster)
    (base ref maskA maskB : Raster) (k : String)
    (hA : ∃ bbA, maskBBox (jimpResize maskA base.width base.height) = some bbA)
    (hB : ∃ bbB, maskBBox (jimpResize maskB base.width base.height) = some bbB) :
    (∀ (gen : Raster → Raster → Except String (List (Option Raster))) e,
      (∀ a b, gen a b = .error e) →
      processRequest blur base ref maskA maskB (some k) gen =
        .error (.processingFailed e) ∧
      (WorkerError.processingFailed e).status = 500 ∧
      ∀ r, processRequest blur base ref maskA maskB (some k) gen ≠ .ok r) ∧
    (∀ (gen : Raster → Raster → Except String (List (Option Raster))) parts,
      (∀ a b, gen a b = .ok parts) → parts.findSome? id = none →
      processRequest blur base ref maskA maskB (some k) gen = .error .modelNoImage ∧
      WorkerError.modelNoImage.status = 502 ∧
      ∀ r, processRequest blur base ref maskA maskB (some k) gen ≠ .ok r) := by
  obtain ⟨bbA, hA⟩ := hA
  obtain ⟨bbB, hB⟩ := hB
  constructor
  · intro gen e hg
    have h : processRequest blur base ref maskA maskB (some k) gen =
        .error (.processingFailed e) := by
      unfold processRequest afterResize
      rw [hA, hB]
      simp [hg]
    refine ⟨h, rfl, fun r hr => ?_⟩
    rw [h] at hr
    cases hr
  · intro gen parts hg hp
    have h : processRequest blur base ref maskA maskB (some k) gen =
        .error .modelNoImage := by
      unfold processRequest afterResize
      rw [hA, hB]
      simp [hg, hp]
    refine ⟨h, rfl, fun r hr => ?_⟩
    rw [h] at hr
    cases hr

/-- Witness for C7: with 1×1 white masks, a transform that throws "quota"
yields the 500 processing failure preserving "quota", and a transform whose
response has two imageless parts yields the 502 no-image error. -/
theorem generation_failure_typed_witness :
    (processRequest blur0 gray1 white1 white1 white1 (some "k")
        (fun _ _ => .error "quota") = .error (.processingFailed "quota") ∧
      (WorkerError.processingFailed "quota").status = 500 ∧
      ∀ r, processRequest blur0 gray1 white1 white1 white1 (some "k")
        (fun _ _ => .error "quota") ≠ .ok r) ∧
    (processRequest blur0 gray1 white1 white1 white1 (some "k")
        (fun _ _ => .ok [none, none]) = .error .modelNoImage ∧
      WorkerError.modelNoImage.status = 502 ∧
      ∀ r, processRequest blur0 gray1 white1 white1 white1 (some "k")
        (fun _ _ => .ok [none, none]) ≠ .ok r) :=
  ⟨(generation_failure_typed blur0 gray1 white1 white1 white1 "k"
      ⟨⟨0, 0, 1, 1⟩, by rfl⟩ ⟨⟨0, 0, 1, 1⟩, by rfl⟩).1
      (fun _ _ => .error "quota") "quota" (fun _ _ => rfl),
   (generation_failure_typed blur0 gray1 white1 white1 white1 "k"
      ⟨⟨0, 0, 1, 1⟩, by rfl⟩ ⟨⟨0, 0, 1, 1⟩, by rfl⟩).2
      (fun _ _ => .ok [none, none]) [none, none] (fun _ _ => rfl) (by rfl)⟩

/-! ### C8: no pass-through mode when the generate dependency is unset -/

/-- Counterexample for C8: with a fully valid request but no API key, the
worker does not fall back to copying the masked reference patch — it fails
with the 500 missing-key error; and the only pass-through in the repository,
the server variant's regeneration stub, returns the source bytes untouched
unconditionally (ignoring reference, masks and mode), i.e. it is silent and
not selectable. -/
theorem passthrough_missing_cex :
    processRequest blur0 gray1 white1 white1 white1 none genOkNano =
      .error .missingApiKey ∧
    regeneratePatchWithGemini [9, 9, 9] [1, 2] [(0, [3], [4])] "auto" = [9, 9, 9] :=
  ⟨by rfl, rfl⟩

/-- C8 (amended).  If the generate dependency is unavailable (`GEMINI_API_KEY`
unset), the worker aborts the request with the 500 missing-key error — there
is no pass-through mode; independently, the server variant's stub always
passes the source through unchanged, regardless of any caller selection. -/
theorem missingKey_aborts (blur : Raster → Nat → Raster)
    (base ref maskA maskB : Raster)
    (gen : Raster → Raster → Except String (List (Option Raster)))
    (hA : ∃ bbA, maskBBox (jimpResize maskA base.width base.height) = some bbA)
    (hB : ∃ bbB, maskBBox (jimpResize maskB base.width base.height) = some bbB) :
    processRequest blur base ref maskA maskB none gen = .error .missingApiKey ∧
    WorkerError.missingApiKey.status = 500 ∧
    ∀ s r p mo, regeneratePatchWithGemini s r p mo = s := by
  obtain ⟨bbA, hA⟩ := hA
  obtain ⟨bbB, hB⟩ := hB
  refine ⟨?_, rfl, fun s r p mo => rfl⟩
  unfold processRequest afterResize
  rw [hA, hB]

/-- Witness for C8 (amended): the concrete valid-but-keyless 1×1 request. -/
theorem missingKey_aborts_witness :
    processRequest blur0 gray1 white1 white1 white1 none genOkNano =
      .error .missingApiKey ∧
    WorkerError.missingApiKey.status = 500 ∧
    ∀ s r p mo, regeneratePatchWithGemini s r p mo = s :=
  missingKey_aborts blur0 gray1 white1 white1 white1 genOkNano
    ⟨⟨0, 0, 1, 1⟩, by rfl⟩ ⟨⟨0, 0, 1, 1⟩, by rfl⟩

/-! ### C4: the resample is a stretch, not contain/center-fit -/

/-- Counterexample for C4: resampling the all-white 2×1 raster onto a 2×2
canvas.  The worker's `resize` (scale-to-fill) covers the whole canvas with
white — true under any resampling filter, since every sample is a convex
combination of white source pixels — while the contain/center-fit semantics
the claim specifies scales uniformly to 2×1 and letterboxes the second row
with padding.  The two resamples differ at row 1. -/
theorem resample_not_contain_cex :
    jimpResize white21 2 2 ≠ containFit white21 2 2 ∧
    jimpResize white21 2 2 =
      ⟨2, 2, [255, 255, 255, 255, 255, 255, 255, 255,
              255, 255, 255, 255, 255, 255, 255, 255]⟩ ∧
    containFit white21 2 2 =
      ⟨2, 2, [255, 255, 255, 255, 255, 255, 255, 255,
              0, 0, 0, 0, 0, 0, 0, 0]⟩ :=
  ⟨by decide, by decide, by decide⟩

/-- C4 (amended).  Before any per-pair processing the handler resamples the
reference and both masks to exactly the base's `(W, H)` — but with the plain
scale-to-fill `resize` (which may distort aspect ratio), not contain/center-fit
semantics; the resampled rasters have exactly the base's dimensions. -/
theorem resample_before_pairs (blur : Raster → Nat → Raster)
    (base ref maskA maskB : Raster) (apiKey : Option String)
    (gen : Raster → Raster → Except String (List (Option Raster))) :
    processRequest blur base ref maskA maskB apiKey gen =
      afterResize blur base (jimpResize ref base.width base.height)
        (jimpResize maskA base.width base.height)
        (jimpResize maskB base.width base.height) apiKey gen ∧
    (∀ m w h, (jimpResize m w h).width = w ∧ (jimpResize m w h).height = h) :=
  ⟨rfl, fun _ _ _ => ⟨rfl, rfl⟩⟩

/-! ### C5: sequential pair processing, last write wins -/

lemma getD_append_lt' {α : Type} (l l' : List α) (i : Nat) (hi : i < l.length) (d : α) :
    (l ++ l').getD i d = l.getD i d := by
  simp [List.getD_eq_getElem?_getD, List.getElem?_append_left hi]

lemma getD_append_ge' {α : Type} (l l' : List α) (i : Nat) (hi : l.length ≤ i) (d : α) :
    (l ++ l').getD i d = l'.getD (i - l.length) d := by
  simp [List.getD_eq_getElem?_getD, List.getElem?_append_right hi]

lemma getD_map_range {α : Type} (g : Nat → α) (n i : Nat) (hi : i < n) (d : α) :
    ((List.range n).map g).getD i d = g i := by
  simp [List.getD_eq_getElem?_getD, List.getElem?_range hi]

lemma length_flatten_const (L : List (List Nat)) (k : Nat) (h : ∀ l ∈ L, l.length = k) :
    L.flatten.length = L.length * k := by
  induction L with
  | nil => simp
  | cons a L ih =>
    simp only [List.flatten_cons, List.length_append, List.length_cons]
    rw [ih (fun l hl => h l (List.mem_cons_of_mem a hl)), h a (List.mem_cons_self a L)]
    ring

lemma getD_flatten_const (L : List (List Nat)) (k : Nat)
    (h : ∀ l ∈ L, l.length = k) (i r : Nat) (hi : i < L.length) (hr : r < k) :
    L.flatten.getD (i * k + r) 0 = (L.getD i []).getD r 0 := by
  induction L generalizing i with
  | nil => cases hi
  | cons a L ih =>
    have ha : a.length = k := h a (List.mem_cons_self a L)
    cases i with
    | zero =>
      simp only [List.flatten_cons, Nat.zero_mul, Nat.zero_add]
      rw [getD_append_lt' _ _ _ (by omega)]
      rfl
    | succ i =>
      simp only [List.flatten_cons]
      have hk : a.length ≤ (i + 1) * k + r := by
        rw [ha, Nat.succ_mul]
        omega
      rw [getD_append_ge' _ _ _ hk]
      have hsub : (i + 1) * k + r - a.length = i * k + r := by
        rw [ha, Nat.succ_mul]
        omega
      rw [hsub]
      exact ih (fun l hl => h l (List.mem_cons_of_mem a hl)) i
        (by simpa using Nat.lt_of_succ_lt_succ hi)

/-- Reading a channel of a raster built with `buildData` recovers the
generating function's value at the pixel. -/
lemma chan_buildData (w h : Nat) (f : Nat → Nat → List Nat)
    (hf : ∀ x y, (f x y).length = 4) (x y c : Nat)
    (hx : x < w) (hy : y < h) (hc : c < 4) :
    (buildData w h f).getD ((y * w + x) * 4 + c) 0 = (f x y).getD c 0 := by
  have hrows : ∀ row ∈ (List.range h).map
      (fun y => ((List.range w).map (fun x => f x y)).flatten), row.length = w * 4 := by
    intro row hrow
    obtain ⟨y', _, rfl⟩ := List.mem_map.mp hrow
    rw [length_flatten_const _ 4 ?_, List.length_map, List.length_range]
    intro l hl
    obtain ⟨x', _, rfl⟩ := List.mem_map.mp hl
    exact hf x' y'
  have hidx : (y * w + x) * 4 + c = y * (w * 4) + (x * 4 + c) := by ring
  rw [buildData, hidx]
  rw [getD_flatten_const _ (w * 4) hrows y (x * 4 + c)
    (by simpa using hy) (by omega)]
  rw [getD_map_range _ h y hy]
  rw [getD_flatten_const _ 4 ?_ x c (by simpa using hx) hc]
  · rw [getD_map_range _ w x hx]
  · intro l hl
    obtain ⟨x', _, rfl⟩ := List.mem_map.mp hl
    exact hf x' y

lemma chan_mk (w h : Nat) (f : Nat → Nat → List Nat) (hf : ∀ x y, (f x y).length = 4)
    (x y c : Nat) (hx : x < w) (hy : y < h) (hc : c < 4) :
    chan ⟨w, h, buildData w h f⟩ x y c = (f x y).getD c 0 := by
  unfold chan Raster.byteAt
  exact chan_buildData w h f hf x y c hx hy hc

lemma chan_newJimp (w h r g b a : Nat) (x y c : Nat)
    (hx : x < w) (hy : y < h) (hc : c < 4) :
    chan (newJimp w h r g b a) x y c = [r, g, b, a].getD c 0 := by
  unfold newJimp
  exact chan_mk w h (fun _ _ => [r, g, b, a]) (fun _ _ => rfl) x y c hx hy hc

/-- Pointwise description of compositing: inside the overlay's extent the
destination pixel is alpha-blended with the overlay pixel, outside it is
untouched. -/
lemma chan_jimpComposite (dest ov : Raster) (ox oy : Int) (x y c : Nat)
    (hx : x < dest.width) (hy : y < dest.height) (hc : c < 4) :
    chan (jimpComposite dest ov ox oy) x y c =
      if 0 ≤ (x : Int) - ox ∧ (x : Int) - ox < (ov.width : Int) ∧
         0 ≤ (y : Int) - oy ∧ (y : Int) - oy < (ov.height : Int) then
        blendChan (chan ov ((x : Int) - ox).toNat ((y : Int) - oy).toNat c)
          (chan dest x y c)
          (chan ov ((x : Int) - ox).toNat ((y : Int) - oy).toNat 3)
      else chan dest x y c := by
  unfold jimpComposite
  rw [chan_mk _ _ _ ?hf x y c hx hy hc]
  case hf =>
    intro a b
    dsimp only
    split <;> rfl
  dsimp only
  have hc4 : c = 0 ∨ c = 1 ∨ c = 2 ∨ c = 3 := by omega
  split <;> (rcases hc4 with rfl | rfl | rfl | rfl <;> rfl)

/-- Masking never changes the RGB channels. -/
lemma chan_jimpMask_rgb (dest msk : Raster) (ox oy : Int) (x y c : Nat)
    (hx : x < dest.width) (hy : y < dest.height) (hc : c < 3) :
    chan (jimpMask dest msk ox oy) x y c = chan dest x y c := by
  unfold jimpMask
  rw [chan_mk _ _ _ ?hf x y c hx hy (by omega)]
  case hf =>
    intro a b
    dsimp only
    split <;> rfl
  dsimp only
  have hc3 : c = 0 ∨ c = 1 ∨ c = 2 := by omega
  split <;> (rcases hc3 with rfl | rfl | rfl <;> rfl)

/-- Masking scales alpha by the mask pixel's RGB sum over 765 inside the
mask's extent. -/
lemma chan_jimpMask_alpha (dest msk : Raster) (ox oy : Int) (x y : Nat)
    (hx : x < dest.width) (hy : y < dest.height) :
    chan (jimpMask dest msk ox oy) x y 3 =
      if 0 ≤ (x : Int) - ox ∧ (x : Int) - ox < (msk.width : Int) ∧
         0 ≤ (y : Int) - oy ∧ (y : Int) - oy < (msk.height : Int) then
        chan dest x y 3 *
          (chan msk ((x : Int) - ox).toNat ((y : Int) - oy).toNat 0 +
           chan msk ((x : Int) - ox).toNat ((y : Int) - oy).toNat 1 +
           chan msk ((x : Int) - ox).toNat ((y : Int) - oy).toNat 2) / 765
      else chan dest x y 3 := by
  unfold jimpMask
  rw [chan_mk _ _ _ ?hf x y 3 hx hy (by omega)]
  case hf =>
    intro a b
    dsimp only
    split <;> rfl
  dsimp only
  split <;> rfl

/-- Blending against a fully opaque overlay pixel yields the overlay value. -/
lemma blendChan_opaque (o d : Nat) : blendChan o d 255 = o := by
  unfold blendChan
  omega

lemma regenerate_append (blur : Raster → Nat → Raster) (base ref : Raster)
    (generate : Raster → Raster → Raster) (ps : List MaskPair) (p : MaskPair) :
    regenerate blur base ref (ps ++ [p]) generate =
      regenerate blur base ref ps generate >>= fun cv =>
        stepPair blur base.width base.height base
          (jimpResize ref base.width base.height) generate cv p := by
  unfold regenerate
  rw [List.foldlM_append]
  simp

/-- C5.  The multi-pair orchestrator processes pairs strictly sequentially in
ascending order: appending a pair composites it onto the canvas state left by
all earlier pairs.  And at any pixel of the last pair's clamped source box
where its feathered mask is fully on and its regenerated patch is opaque, the
final canvas shows exactly the last pair's regenerated pixel, whatever the
incoming canvas holds — so in an overlap the later pair's result is what is
visible (last write wins). -/
theorem pairs_sequential_lastWriteWins (blur : Raster → Nat → Raster)
    (base ref : Raster) (generate : Raster → Raster → Raster)
    (ps : List MaskPair) (p : MaskPair) (bbA bbB A B : BBox)
    (canvas : Raster) (qx qy c : Nat)
    (hA : maskBBox (jimpResize p.sourceMask base.width base.height) = some bbA)
    (hB : maskBBox (jimpResize p.referenceMask base.width base.height) = some bbB)
    (hAdef : A = clampBBox bbA (base.width : Int) (base.height : Int))
    (hBdef : B = clampBBox bbB (base.width : Int) (base.height : Int))
    (hW : 1 ≤ base.width) (hH : 1 ≤ base.height)
    (hcw : canvas.width = base.width) (hch : canvas.height = base.height)
    (hqx : A.x ≤ (qx : Int) ∧ (qx : Int) < A.x + A.w)
    (hqy : A.y ≤ (qy : Int) ∧ (qy : Int) < A.y + A.h)
    (hfw : (qx : Int) < ((feather blur (jimpResize p.sourceMask base.width base.height)
      featherDefaultRadius).width : Int))
    (hfh : (qy : Int) < ((feather blur (jimpResize p.sourceMask base.width base.height)
      featherDefaultRadius).height : Int))
    (hfe : chan (feather blur (jimpResize p.sourceMask base.width base.height)
        featherDefaultRadius) qx qy 0 +
      chan (feather blur (jimpResize p.sourceMask base.width base.height)
        featherDefaultRadius) qx qy 1 +
      chan (feather blur (jimpResize p.sourceMask base.width base.height)
        featherDefaultRadius) qx qy 2 = 765)
    (hop : chan (pairRegen base (jimpResize ref base.width base.height) generate A B)
      ((qx : Int) - A.x).toNat ((qy : Int) - A.y).toNat 3 = 255)
    (hc : c < 3) :
    (regenerate blur base ref (ps ++ [p]) generate =
      regenerate blur base ref ps generate >>= fun cv =>
        stepPair blur base.width base.height base
          (jimpResize ref base.width base.height) generate cv p) ∧
    (stepPair blur base.width base.height base
        (jimpResize ref base.width base.height) generate canvas p =
      .ok (jimpComposite canvas (pairScratch blur base.width base.height base
        (jimpResize ref base.width base.height) generate p A B) 0 0)) ∧
    chan (jimpComposite canvas (pairScratch blur base.width base.height base
        (jimpResize ref base.width base.height) generate p A B) 0 0) qx qy c =
      chan (pairRegen base (jimpResize ref base.width base.height) generate A B)
        ((qx : Int) - A.x).toNat ((qy : Int) - A.y).toNat c := by
  refine ⟨regenerate_append blur base ref generate ps p, ?_, ?_⟩
  · rw [hAdef, hBdef]
    unfold stepPair
    rw [hA, hB]
  · have hbnd := clampBBox_bounds bbA (base.width : Int) (base.height : Int)
      (by exact_mod_cast hW) (by exact_mod_cast hH)
    rw [← hAdef] at hbnd
    obtain ⟨hAx0, hAxW, hAw1, hAwW, hAy0, hAyH, hAh1, hAhH⟩ := hbnd
    have hqxW : qx < base.width := by omega
    have hqyH : qy < base.height := by omega
    have hps : pairScratch blur base.width base.height base
        (jimpResize ref base.width base.height) generate p A B =
        jimpMask (jimpComposite (newJimp base.width base.height 0 0 0 0)
          (pairRegen base (jimpResize ref base.width base.height) generate A B) A.x A.y)
          (feather blur (jimpResize p.sourceMask base.width base.height)
            featherDefaultRadius) 0 0 := rfl
    rw [hps]
    set regen := pairRegen base (jimpResize ref base.width base.height) generate A B
      with hregen
    set fe := feather blur (jimpResize p.sourceMask base.width base.height)
      featherDefaultRadius with hfedef
    set scr := jimpComposite (newJimp base.width base.height 0 0 0 0) regen A.x A.y
      with hscr
    have hSW : (jimpMask scr fe 0 0).width = base.width := rfl
    have hSH : (jimpMask scr fe 0 0).height = base.height := rfl
    have hregenW : ((regen.width : Int)) = A.w := by
      show ((A.w.toNat : Nat) : Int) = A.w
      exact Int.toNat_of_nonneg (by omega)
    have hregenH : ((regen.height : Int)) = A.h := by
      show ((A.h.toNat : Nat) : Int) = A.h
      exact Int.toNat_of_nonneg (by omega)
    have hscr3 : chan scr qx qy 3 = 255 := by
      rw [hscr]
      rw [chan_jimpComposite (newJimp base.width base.height 0 0 0 0) regen A.x A.y
        qx qy 3 hqxW hqyH (by omega)]
      rw [if_pos ?cond]
      case cond =>
        refine ⟨by omega, ?_, by omega, ?_⟩
        · rw [hregenW]; omega
        · rw [hregenH]; omega
      rw [chan_newJimp _ _ _ _ _ _ qx qy 3 hqxW hqyH (by omega)]
      rw [hop]
      rfl
    have hS3 : chan (jimpMask scr fe 0 0) qx qy 3 = 255 := by
      rw [chan_jimpMask_alpha scr fe 0 0 qx qy hqxW hqyH]
      rw [if_pos ⟨by omega, by omega, by omega, by omega⟩]
      simp only [Int.sub_zero, Int.toNat_ofNat]
      rw [hfe, hscr3]
    have hSc : chan (jimpMask scr fe 0 0) qx qy c =
        chan regen ((qx : Int) - A.x).toNat ((qy : Int) - A.y).toNat c := by
      rw [chan_jimpMask_rgb scr fe 0 0 qx qy c hqxW hqyH hc]
      rw [hscr]
      rw [chan_jimpComposite (newJimp base.width base.height 0 0 0 0) regen A.x A.y
        qx qy c hqxW hqyH (by omega)]
      rw [if_pos ?cond2]
      case cond2 =>
        refine ⟨by omega, ?_, by omega, ?_⟩
        · rw [hregenW]; omega
        · rw [hregenH]; omega
      rw [chan_newJimp _ _ _ _ _ _ qx qy c hqxW hqyH (by omega), hop]
      have h0 : [0, 0, 0, 0].getD c 0 = 0 := by
        rcases (by omega : c = 0 ∨ c = 1 ∨ c = 2) with rfl | rfl | rfl <;> rfl
      rw [h0, blendChan_opaque]
    rw [chan_jimpComposite canvas (jimpMask scr fe 0 0) 0 0 qx qy c
      (by omega) (by omega) (by omega)]
    rw [if_pos ?condf]
    case condf =>
      refine ⟨by omega, ?_, by omega, ?_⟩
      · rw [hSW]; omega
      · rw [hSH]; omega
    simp only [Int.sub_zero, Int.toNat_ofNat]
    rw [hS3, blendChan_opaque, hSc]

/-- Witness for C5: two identical full-canvas pairs on a 1×1 base.  The
append law and the step equation hold, and the visible pixel after the last
pair equals the last pair's regenerated (red) pixel even on a canvas
pre-filled with the value 9 everywhere. -/
theorem pairs_sequential_lastWriteWins_witness :
    (regenerate blur0 gray1 white1 ([pairWW] ++ [pairWW]) (fun _ _ => red1) =
      regenerate blur0 gray1 white1 [pairWW] (fun _ _ => red1) >>= fun cv =>
        stepPair blur0 gray1.width gray1.height gray1
          (jimpResize white1 gray1.width gray1.height) (fun _ _ => red1) cv pairWW) ∧
    (stepPair blur0 gray1.width gray1.height gray1
        (jimpResize white1 gray1.width gray1.height) (fun _ _ => red1)
        (newJimp 1 1 9 9 9 9) pairWW =
      .ok (jimpComposite (newJimp 1 1 9 9 9 9)
        (pairScratch blur0 gray1.width gray1.height gray1
          (jimpResize white1 gray1.width gray1.height) (fun _ _ => red1) pairWW
          ⟨0, 0, 1, 1⟩ ⟨0, 0, 1, 1⟩) 0 0)) ∧
    chan (jimpComposite (newJimp 1 1 9 9 9 9)
        (pairScratch blur0 gray1.width gray1.height gray1
          (jimpResize white1 gray1.width gray1.height) (fun _ _ => red1) pairWW
          ⟨0, 0, 1, 1⟩ ⟨0, 0, 1, 1⟩) 0 0) 0 0 0 =
      chan (pairRegen gray1 (jimpResize white1 gray1.width gray1.height)
          (fun _ _ => red1) ⟨0, 0, 1, 1⟩ ⟨0, 0, 1, 1⟩)
        (((0 : Nat) : Int) - (⟨0, 0, 1, 1⟩ : BBox).x).toNat
        (((0 : Nat) : Int) - (⟨0, 0, 1, 1⟩ : BBox).y).toNat 0 :=
  pairs_sequential_lastWriteWins blur0 gray1 white1 (fun _ _ => red1)
    [pairWW] pairWW ⟨0, 0, 1, 1⟩ ⟨0, 0, 1, 1⟩ ⟨0, 0, 1, 1⟩ ⟨0, 0, 1, 1⟩
    (newJimp 1 1 9 9 9 9) 0 0 0
    (by decide) (by decide) (by decide) (by decide) (by decide) (by decide)
    (by decide) (by decide) (by decide) (by decide) (by decide) (by decide)
    (by decide) (by decide) (by decide)

end BadRobot
